import Mathlib

/-!
Verification of the megalink Mega Everdrive Pro serial driver (src/lib.rs).

The driver talks a binary command protocol over a serial byte stream.  We
embed the wire-level behaviour of each operation as a pure Lean function:
a connection is modelled as the stream of bytes still readable from the
device plus the trace of wire events (byte writes, byte reads, flushes)
performed so far, and every driver operation is a state-passing function
on connections.  Device responses are supplied through the input stream;
fallible operations return an `Except` of a typed error.
-/

/-- A single observable action on the serial connection. -/
inductive WireEvent : Type
  /-- One byte written to the wire. -/
  | write (b : Nat)
  /-- One byte read from the wire (the value received). -/
  | read (b : Nat)
  /-- An explicit flush of buffered writes. -/
  | flush
deriving DecidableEq, Repr

/-- Typed counterpart of the anyhow error values produced by the driver. -/
inductive DriverError : Type
  /-- Underlying transport failure (read on an exhausted stream). -/
  | ioFail
  /-- Message "invalid status response" from get_status. -/
  | invalidStatus (msg : Nat)
  /-- Message "error transferring data" from tx_ack. -/
  | transferError (code : Nat)
  /-- Message "unexpected response" from load_game. -/
  | unexpectedResponse (b : Nat)
  /-- Message "unexpected test response" from load_game. -/
  | unexpectedTestResponse (b : Nat)
  /-- Message "unexpected status" from check_status. -/
  | unexpectedStatus (code : Nat)
  /-- Message "timeout reconnecting to device" from set_mode. -/
  | reconnectTimeout
  /-- String::from_utf8 failure inside rx_str. -/
  | malformedString
deriving DecidableEq, Repr

/-- A serial connection: the bytes the device will deliver on subsequent
reads, and the trace of wire events performed so far on this connection. -/
structure Conn : Type where
  input : List Nat
  events : List WireEvent
deriving DecidableEq, Repr

/-- The operation mode of the Mega Everdrive Pro (enum Mode in lib.rs). -/
inductive Mode : Type
  | Service
  | App
deriving DecidableEq, Repr

/-- A reset mode for the Mega Drive (enum ResetMode in lib.rs). -/
inductive ResetMode : Type
  | Off
  | Soft
  | Hard
deriving DecidableEq, Repr

/-- ResetMode::command. -/
def ResetMode.command : ResetMode → Nat
  | .Off => 0
  | .Soft => 1
  | .Hard => 2

/-- Constant PACKET_CMD, the ASCII code of the plus character. -/
def PACKET_CMD : Nat := 43

/-- Constant ACK_BLOCK_SIZE. -/
def ACK_BLOCK_SIZE : Nat := 1024

/-- Constant ADDR_ROM. -/
def ADDR_ROM : Nat := 0x0000000

/-- Constant ADDR_FIFO. -/
def ADDR_FIFO : Nat := 0x1810000

/-- Constant CMD_STATUS. -/
def CMD_STATUS : Nat := 0x10

/-- Constant CMD_GET_MODE. -/
def CMD_GET_MODE : Nat := 0x11

/-- Constant CMD_IO_RST. -/
def CMD_IO_RST : Nat := 0x12

/-- Constant CMD_MEM_RD. -/
def CMD_MEM_RD : Nat := 0x19

/-- Constant CMD_MEM_WR. -/
def CMD_MEM_WR : Nat := 0x1A

/-- Constant CMD_HOST_RST. -/
def CMD_HOST_RST : Nat := 0x29

/-- Constant CMD_RUN_APP. -/
def CMD_RUN_APP : Nat := 0xF1

/-- Bitwise complement of an 8-bit value, the Rust not operator on u8. -/
def not8 (b : Nat) : Nat := 255 - b % 256

/-- Big-endian byte pair of a 16-bit value (BigEndian::write_u16). -/
def be16 (v : Nat) : List Nat := [v / 256 % 256, v % 256]

/-- Big-endian bytes of a 32-bit value (BigEndian::write_u32). -/
def be32 (v : Nat) : List Nat :=
  [v / 2 ^ 24 % 256, v / 2 ^ 16 % 256, v / 2 ^ 8 % 256, v % 256]

/-- Append a list of written bytes to the trace (Write::write_all). -/
def wr (c : Conn) (bs : List Nat) : Conn :=
  ⟨c.input, c.events ++ bs.map WireEvent.write⟩

/-- EverdriveSerial::flush_cmd, which flushes the serial stream. -/
def flush_cmd (c : Conn) : Conn :=
  ⟨c.input, c.events ++ [WireEvent.flush]⟩

/-- Read exactly n bytes from the stream (Read::read_exact); an exhausted
stream models a wire-level timeout. -/
def rdN (c : Conn) (n : Nat) : Except DriverError (List Nat) × Conn :=
  if n ≤ c.input.length then
    (.ok (c.input.take n),
      ⟨c.input.drop n, c.events ++ (c.input.take n).map WireEvent.read⟩)
  else (.error .ioFail, c)

/-- EverdriveSerial::rx_u8. -/
def rx_u8 (c : Conn) : Except DriverError Nat × Conn :=
  match c.input with
  | [] => (.error .ioFail, c)
  | b :: rest => (.ok b, ⟨rest, c.events ++ [WireEvent.read b]⟩)

/-- EverdriveSerial::rx_u16 (big-endian). -/
def rx_u16 (c : Conn) : Except DriverError Nat × Conn :=
  match c.input with
  | b1 :: b2 :: rest =>
    (.ok (b1 * 256 + b2), ⟨rest, c.events ++ [WireEvent.read b1, WireEvent.read b2]⟩)
  | _ => (.error .ioFail, c)

/-- EverdriveSerial::tx_cmd: the 4-byte command frame. -/
def tx_cmd (c : Conn) (cmd : Nat) : Conn :=
  wr c [PACKET_CMD, not8 PACKET_CMD, cmd, not8 cmd]

/-- EverdriveSerial::tx_u8. -/
def tx_u8 (c : Conn) (v : Nat) : Conn := wr c [v]

/-- EverdriveSerial::tx_u16. -/
def tx_u16 (c : Conn) (v : Nat) : Conn := wr c (be16 v)

/-- EverdriveSerial::tx_u32. -/
def tx_u32 (c : Conn) (v : Nat) : Conn := wr c (be32 v)

/-- EverdriveSerial::tx_str: the argument is the UTF-8 byte content of the
Rust string; the 16-bit cast of the length is the explicit mod 2^16. -/
def tx_str (c : Conn) (s : List Nat) : Conn :=
  wr (tx_u16 c (s.length % 65536)) s

/-- Continuation byte test for UTF-8 (0x80 to 0xBF). -/
def isCont (b : Nat) : Bool := 128 ≤ b && b ≤ 191

/-- Validity of a byte sequence as UTF-8, with the acceptance ranges of
Rust's str::from_utf8 (used by String::from_utf8 inside rx_str). -/
def validUtf8 : List Nat → Bool
  | [] => true
  | b :: rest =>
    if b ≤ 127 then validUtf8 rest
    else if 194 ≤ b && b ≤ 223 then
      match rest with
      | b2 :: r2 => isCont b2 && validUtf8 r2
      | _ => false
    else if b = 224 then
      match rest with
      | b2 :: b3 :: r3 => (160 ≤ b2 && b2 ≤ 191) && isCont b3 && validUtf8 r3
      | _ => false
    else if 225 ≤ b && b ≤ 236 then
      match rest with
      | b2 :: b3 :: r3 => isCont b2 && isCont b3 && validUtf8 r3
      | _ => false
    else if b = 237 then
      match rest with
      | b2 :: b3 :: r3 => (128 ≤ b2 && b2 ≤ 159) && isCont b3 && validUtf8 r3
      | _ => false
    else if 238 ≤ b && b ≤ 239 then
      match rest with
      | b2 :: b3 :: r3 => isCont b2 && isCont b3 && validUtf8 r3
      | _ => false
    else if b = 240 then
      match rest with
      | b2 :: b3 :: b4 :: r4 =>
        (144 ≤ b2 && b2 ≤ 191) && isCont b3 && isCont b4 && validUtf8 r4
      | _ => false
    else if 241 ≤ b && b ≤ 243 then
      match rest with
      | b2 :: b3 :: b4 :: r4 => isCont b2 && isCont b3 && isCont b4 && validUtf8 r4
      | _ => false
    else if b = 244 then
      match rest with
      | b2 :: b3 :: b4 :: r4 =>
        (128 ≤ b2 && b2 ≤ 143) && isCont b3 && isCont b4 && validUtf8 r4
      | _ => false
    else false

/-- EverdriveSerial::rx_str, returning the UTF-8 byte content of the string. -/
def rx_str (c : Conn) : Except DriverError (List Nat) × Conn :=
  match rx_u16 c with
  | (.error e, c1) => (.error e, c1)
  | (.ok len, c1) =>
    match rdN c1 len with
    | (.error e, c2) => (.error e, c2)
    | (.ok bs, c2) =>
      if validUtf8 bs then (.ok bs, c2) else (.error .malformedString, c2)

/-- EverdriveSerial::get_status. -/
def get_status (c : Conn) : Except DriverError Nat × Conn :=
  match rx_u16 (flush_cmd (tx_cmd c CMD_STATUS)) with
  | (.error e, c2) => (.error e, c2)
  | (.ok msg, c2) =>
    if msg &&& 0xff00 ≠ 0xa500 then (.error (.invalidStatus msg), c2)
    else (.ok (msg % 256), c2)

/-- EverdriveSerial::check_status. -/
def check_status (c : Conn) : Except DriverError Unit × Conn :=
  match get_status c with
  | (.error e, c1) => (.error e, c1)
  | (.ok res, c1) =>
    if res ≠ 0 then (.error (.unexpectedStatus res), c1) else (.ok (), c1)

/-- Interpretation of the get_mode response byte (0xA1 is Service). -/
def mode_of_byte (b : Nat) : Mode := if b = 0xa1 then .Service else .App

/-- EverdriveSerial::get_mode. -/
def get_mode (c : Conn) : Except DriverError Mode × Conn :=
  match rx_u8 (flush_cmd (tx_cmd c CMD_GET_MODE)) with
  | (.error e, c2) => (.error e, c2)
  | (.ok b, c2) => (.ok (mode_of_byte b), c2)

/-- Decidable equality for Except, needed so that witnesses can be checked
by evaluation. -/
instance {ε α : Type} [DecidableEq ε] [DecidableEq α] : DecidableEq (Except ε α) :=
  fun x y =>
  match x, y with
  | .error e1, .error e2 =>
    if h : e1 = e2 then .isTrue (h ▸ rfl)
    else .isFalse (fun hc => h (Except.error.inj hc))
  | .error _, .ok _ => .isFalse (fun hc => Except.noConfusion hc)
  | .ok _, .error _ => .isFalse (fun hc => Except.noConfusion hc)
  | .ok a1, .ok a2 =>
    if h : a1 = a2 then .isTrue (h ▸ rfl)
    else .isFalse (fun hc => h (Except.ok.inj hc))

/-- Driver state: the currently installed serial connection (self.serial)
plus a running count of connection acquisition attempts made against the
SerialFactory. -/
structure DriverState : Type where
  serial : Conn
  acq : Nat
deriving DecidableEq, Repr

/-- Outcome of set_mode, exposing where the wire traffic went: serial is
the connection held by the driver afterwards, replaced is the final state
of the pre-loop connection when the loop swapped it out, acq counts
factory open calls made in total. -/
structure SetModeOut : Type where
  res : Except DriverError Unit
  serial : Conn
  replaced : Option Conn
  acq : Nat
deriving DecidableEq, Repr

/-- The reconnect loop of set_mode (for _ in 0..100 in lib.rs).  The
provider models EverdriveSerial::open_serial: it maps the acquisition
attempt number to an optionally acquired fresh connection (None is an open
failure, absorbed by the loop).  Faithful to the source, the get_status
health check runs on st.serial, the old connection self.serial, and only
afterwards is the fresh connection assigned to self.serial. -/
def setModeLoop (provider : Nat → Option Conn) : Nat → DriverState → SetModeOut
  | 0, st => ⟨.error .reconnectTimeout, st.serial, none, st.acq⟩
  | fuel + 1, st =>
    match provider st.acq with
    | none => setModeLoop provider fuel ⟨st.serial, st.acq + 1⟩
    | some fresh =>
      match get_status st.serial with
      | (.error e, c1) => ⟨.error e, c1, none, st.acq + 1⟩
      | (.ok _, c1) => ⟨.ok (), fresh, some c1, st.acq + 1⟩

/-- EverdriveSerial::set_mode. -/
def set_mode (provider : Nat → Option Conn) (target : Mode) (st : DriverState) :
    SetModeOut :=
  match get_mode st.serial with
  | (.error e, c1) => ⟨.error e, c1, none, st.acq⟩
  | (.ok current, c1) =>
    if current = target then ⟨.ok (), c1, none, st.acq⟩
    else
      let c2 := match target with
        | .Service => tx_u8 (tx_cmd c1 CMD_IO_RST) 0
        | .App => tx_cmd c1 CMD_RUN_APP
      setModeLoop provider 100 ⟨c2, st.acq⟩

/-- EverdriveSerial::reset_host. -/
def reset_host (c : Conn) (mode : ResetMode) : Conn :=
  flush_cmd (tx_u8 (tx_cmd c CMD_HOST_RST) mode.command)

/-- EverdriveSerial::write_memory; the 32-bit cast of the length is the
explicit mod 2^32. -/
def write_memory (c : Conn) (addr : Nat) (data : List Nat) : Conn :=
  if data.length = 0 then c
  else
    flush_cmd (wr (flush_cmd (tx_u8 (tx_u32 (tx_u32 (tx_cmd c CMD_MEM_WR) addr)
      (data.length % 2 ^ 32)) 0)) data)

/-- EverdriveSerial::read_memory, modelled as taking the length of the
caller's buffer and returning the bytes read into it. -/
def read_memory (c : Conn) (addr : Nat) (len : Nat) :
    Except DriverError (List Nat) × Conn :=
  if len = 0 then (.ok [], c)
  else
    rdN (flush_cmd (tx_u8 (tx_u32 (tx_u32 (tx_cmd c CMD_MEM_RD) addr)
      (len % 2 ^ 32)) 0)) len

/-- EverdriveSerial::tx_ack: for each 1024-byte chunk of the payload, read
one status byte, abort on non-zero, otherwise write the chunk and flush. -/
def tx_ack (c : Conn) (data : List Nat) : Except DriverError Unit × Conn :=
  if h : data = [] then (.ok (), c)
  else
    match rx_u8 c with
    | (.error e, c1) => (.error e, c1)
    | (.ok resp, c1) =>
      if resp ≠ 0 then (.error (.transferError resp), c1)
      else tx_ack (flush_cmd (wr c1 (data.take ACK_BLOCK_SIZE)))
        (data.drop ACK_BLOCK_SIZE)
termination_by data.length
decreasing_by
  simp only [List.length_drop, ACK_BLOCK_SIZE]
  have hp : 0 < data.length := List.length_pos.mpr h
  omega

/-- The chunk decomposition performed by slice::chunks(ACK_BLOCK_SIZE). -/
def chunkList (data : List Nat) : List (List Nat) :=
  if h : data = [] then []
  else data.take ACK_BLOCK_SIZE :: chunkList (data.drop ACK_BLOCK_SIZE)
termination_by data.length
decreasing_by
  simp only [List.length_drop, ACK_BLOCK_SIZE]
  have hp : 0 < data.length := List.length_pos.mpr h
  omega

/-- EverdriveSerial::fifo_write. -/
def fifo_write (c : Conn) (data : List Nat) : Conn := write_memory c ADDR_FIFO data

/-- EverdriveSerial::fifo_write_u16. -/
def fifo_write_u16 (c : Conn) (v : Nat) : Conn := fifo_write c (be16 v)

/-- EverdriveSerial::fifo_write_u32. -/
def fifo_write_u32 (c : Conn) (v : Nat) : Conn := fifo_write c (be32 v)

/-- EverdriveSerial::fifo_write_str; the argument is the UTF-8 byte content
of the Rust string, and the 16-bit cast of the length is the explicit
mod 2^16. -/
def fifo_write_str (c : Conn) (s : List Nat) : Conn :=
  fifo_write (fifo_write_u16 c (s.length % 65536)) s

/-- EverdriveSerial::fifo_read, modelled like read_memory. -/
def fifo_read (c : Conn) (len : Nat) : Except DriverError (List Nat) × Conn :=
  read_memory c ADDR_FIFO len

/-- EverdriveSerial::load_game.  The name argument is the UTF-8 byte
content of the Rust name string; the byte lists 42 116, 42 117 and 42 103
are the FIFO command strings star-t, star-u and star-g, 114 and 107 are
the ASCII codes of r and k, and 85 83 66 58 is the ASCII prefix USB
followed by a colon from the format string. -/
def load_game (provider : Nat → Option Conn) (name game : List Nat)
    (skipFpga : Bool) (st : DriverState) : Except DriverError Unit × DriverState :=
  let out := set_mode provider .App st
  match out.res with
  | .error e => (.error e, ⟨out.serial, out.acq⟩)
  | .ok _ =>
    let c4 := reset_host (write_memory (reset_host out.serial .Soft) ADDR_ROM game) .Off
    match rx_u8 c4 with
    | (.error e, c5) => (.error e, ⟨c5, out.acq⟩)
    | (.ok resp, c5) =>
      if resp ≠ 114 then (.error (.unexpectedResponse resp), ⟨c5, out.acq⟩)
      else
        match rx_u8 (flush_cmd (fifo_write c5 [42, 116])) with
        | (.error e, c7) => (.error e, ⟨c7, out.acq⟩)
        | (.ok resp2, c7) =>
          if resp2 ≠ 107 then (.error (.unexpectedTestResponse resp2), ⟨c7, out.acq⟩)
          else
            let c8 := if skipFpga then flush_cmd (fifo_write c7 [42, 117]) else c7
            let c9 := flush_cmd (fifo_write_str (fifo_write_u32
              (fifo_write c8 [42, 103]) (game.length % 2 ^ 32)) ([85, 83, 66, 58] ++ name))
            match rx_u8 c9 with
            | (.error e, c10) => (.error e, ⟨c10, out.acq⟩)
            | (.ok _, c10) => (.ok (), ⟨c10, out.acq⟩)

/-- The bytes written in a wire trace, in order, ignoring reads and
flushes. -/
def writtenBytes : List WireEvent → List Nat
  | [] => []
  | .write b :: es => b :: writtenBytes es
  | .read _ :: es => writtenBytes es
  | .flush :: es => writtenBytes es

/-- The wire trace of one acknowledged tx_ack chunk: a zero status-byte
read, the chunk bytes, then a flush. -/
def chunkTrace (ch : List Nat) : List WireEvent :=
  WireEvent.read 0 :: (ch.map WireEvent.write ++ [WireEvent.flush])

theorem writtenBytes_map_write (bs : List Nat) :
    writtenBytes (bs.map WireEvent.write) = bs := by
  induction bs with
  | nil => rfl
  | cons b rest ih => simp [writtenBytes, ih]

set_option maxRecDepth 4096 in
theorem compl8_eq_xor : ∀ b < 256, 255 - b = b ^^^ 255 := by decide

theorem mask16 (b1 b2 : Nat) (h1 : b1 < 256) (h2 : b2 < 256) :
    (b1 * 256 + b2) &&& 65280 = b1 * 256 := by
  have h2' : b2 < 2 ^ 8 := by norm_num at h2 ⊢; exact h2
  have e1 : b1 * 256 + b2 = 2 ^ 8 * b1 ||| b2 := by
    rw [Nat.mul_comm b1 256]
    exact Nat.mul_add_lt_is_or h2' b1
  have e2 : (65280 : Nat) = 2 ^ 8 * 255 := by norm_num
  have e3 : b1 * 256 = 2 ^ 8 * b1 := by ring
  apply Nat.eq_of_testBit_eq
  intro i
  rw [e1, e2, e3, Nat.testBit_and, Nat.testBit_or, Nat.testBit_mul_pow_two,
    Nat.testBit_mul_pow_two]
  by_cases hi : 8 ≤ i
  · have hb2 : b2 < 2 ^ i :=
      lt_of_lt_of_le h2' (Nat.pow_le_pow_right (by norm_num) hi)
    have h255 : (255 : Nat) = 2 ^ 8 - 1 := by norm_num
    rw [Nat.testBit_lt_two_pow hb2, h255, Nat.testBit_two_pow_sub_one]
    by_cases hj : i - 8 < 8
    · simp [hi, hj]
    · have hb1 : b1 < 2 ^ (i - 8) := by
        calc b1 < 256 := h1
        _ = 2 ^ 8 := by norm_num
        _ ≤ 2 ^ (i - 8) := Nat.pow_le_pow_right (by norm_num) (by omega)
      rw [Nat.testBit_lt_two_pow hb1]
      simp [hi, hj]
  · simp [hi]

/-- C1: for every 8-bit opcode, tx_cmd emits exactly the four bytes 0x2B,
0xD4, the opcode, and the bitwise complement of the opcode, in that order,
and consumes nothing from the device. -/
theorem C1_tx_cmd_frame (cmd : Nat) (h : cmd < 256) (c : Conn) :
    (tx_cmd c cmd).events =
      c.events ++ [WireEvent.write 0x2B, WireEvent.write 0xD4,
        WireEvent.write cmd, WireEvent.write (cmd ^^^ 255)] ∧
    (tx_cmd c cmd).input = c.input := by
  refine ⟨?_, rfl⟩
  have hx : 255 - cmd = cmd ^^^ 255 := compl8_eq_xor cmd h
  simp [tx_cmd, wr, PACKET_CMD, not8, Nat.mod_eq_of_lt h, hx]

/-- C1 witness at opcode 0x10. -/
theorem C1_tx_cmd_frame_w :
    (16 : Nat) < 256 ∧
    (tx_cmd ⟨[], []⟩ 16).events =
      [] ++ [WireEvent.write 0x2B, WireEvent.write 0xD4,
        WireEvent.write 16, WireEvent.write (16 ^^^ 255)] ∧
    (tx_cmd ⟨[], []⟩ 16).input = [] :=
  ⟨by decide, C1_tx_cmd_frame 16 (by decide) ⟨[], []⟩⟩

/-- C2: get_status reads a 16-bit response with bytes b1 b2; when the high
byte b1 is not the 0xA5 sentinel it fails with the invalid-status protocol
error carrying the response, and otherwise it succeeds returning exactly
the low byte b2. -/
theorem C2_get_status_sentinel (b1 b2 : Nat) (h1 : b1 < 256) (h2 : b2 < 256)
    (rest : List Nat) (evs : List WireEvent) :
    (get_status ⟨b1 :: b2 :: rest, evs⟩).1 =
      if b1 = 0xa5 then .ok b2
      else .error (.invalidStatus (b1 * 256 + b2)) := by
  have hm : (b1 * 256 + b2) &&& 65280 = b1 * 256 := mask16 b1 b2 h1 h2
  have hmod : (b1 * 256 + b2) % 256 = b2 := by omega
  by_cases hb : b1 = 165
  · subst hb
    simp [get_status, rx_u16, flush_cmd, tx_cmd, wr, hm, hmod]
  · have hne : b1 * 256 ≠ 42240 := by omega
    simp [get_status, rx_u16, flush_cmd, tx_cmd, wr, hm, hmod, hb, hne]

/-- C2 witness: response 0xA5FF yields status 255, response 0x1234 yields
the protocol violation. -/
theorem C2_get_status_sentinel_w :
    (get_status ⟨[165, 255], []⟩).1 = .ok 255 ∧
    (get_status ⟨[18, 52], []⟩).1 = .error (.invalidStatus 4660) := by
  constructor
  · have h := C2_get_status_sentinel 165 255 (by decide) (by decide) [] []
    simpa using h
  · have h := C2_get_status_sentinel 18 52 (by decide) (by decide) [] []
    simpa using h

/-- C9: fifo_write and fifo_read are exactly write_memory and read_memory
at the fixed FIFO address 0x1810000; they issue no other wire exchange. -/
theorem C9_fifo_is_memory_window :
    (∀ c data, fifo_write c data = write_memory c 0x1810000 data) ∧
    (∀ c len, fifo_read c len = read_memory c 0x1810000 len) :=
  ⟨fun _ _ => rfl, fun _ _ => rfl⟩

/-- C10: tx_str and fifo_write_str emit a 16-bit length value equal to the
byte length of the string reduced mod 2^16 while still writing every byte
of the string, and neither can fail on account of the length (both are
total functions on the connection); when the byte length exceeds 65535,
the 16-bit value read back from the emitted prefix differs from the number
of payload bytes that follow it. -/
theorem C10_length_prefix_truncation (s : List Nat) :
    (∀ c, (tx_str c s).events =
      c.events ++ (be16 (s.length % 65536) ++ s).map WireEvent.write ∧
      (tx_str c s).input = c.input) ∧
    (∀ c, fifo_write_str c s =
      fifo_write (fifo_write c (be16 (s.length % 65536))) s) ∧
    (65535 < s.length →
      ∀ r, (rx_u16 ⟨writtenBytes (tx_str ⟨[], []⟩ s).events, []⟩).1 = .ok r →
        r ≠ (writtenBytes (tx_str ⟨[], []⟩ s).events).length - 2) := by
  refine ⟨fun c => ⟨by simp [tx_str, tx_u16, wr], rfl⟩,
    fun c => rfl, fun hlen r hr => ?_⟩
  have he : writtenBytes (tx_str ⟨[], []⟩ s).events =
      be16 (s.length % 65536) ++ s := by
    have h1 : (tx_str ⟨[], []⟩ s).events =
        (be16 (s.length % 65536) ++ s).map WireEvent.write := by
      simp [tx_str, tx_u16, wr]
    rw [h1, writtenBytes_map_write]
  rw [he] at hr ⊢
  have hm : s.length % 65536 < 65536 := Nat.mod_lt _ (by norm_num)
  have hd : s.length % 65536 / 256 % 256 = s.length % 65536 / 256 := by
    apply Nat.mod_eq_of_lt; omega
  simp [rx_u16, be16] at hr
  subst hr
  simp [be16]
  omega

/-- C10 witness at a 65537-byte string: the prefix value 1 differs from the
65537 bytes that follow. -/
theorem C10_length_prefix_truncation_w :
    65535 < (List.replicate 65537 97).length ∧
    (rx_u16 ⟨writtenBytes (tx_str ⟨[], []⟩ (List.replicate 65537 97)).events,
      []⟩).1 = .ok 1 ∧
    (1 : Nat) ≠
      (writtenBytes (tx_str ⟨[], []⟩ (List.replicate 65537 97)).events).length - 2 := by
  have hlen : 65535 < (List.replicate 65537 (97 : Nat)).length := by
    simp only [List.length_replicate]
    norm_num
  have he : writtenBytes (tx_str ⟨[], []⟩ (List.replicate 65537 97)).events =
      be16 ((List.replicate 65537 97).length % 65536) ++ List.replicate 65537 97 := by
    have h2 : (tx_str ⟨[], []⟩ (List.replicate 65537 97)).events =
        (be16 ((List.replicate 65537 97).length % 65536) ++
          List.replicate 65537 97).map WireEvent.write := by
      simp only [tx_str, tx_u16, wr, List.map_append, List.nil_append]
    rw [h2, writtenBytes_map_write]
  have hr : (rx_u16 ⟨writtenBytes (tx_str ⟨[], []⟩
      (List.replicate 65537 97)).events, []⟩).1 = .ok 1 := by
    rw [he]
    have h1 : (List.replicate 65537 (97 : Nat)).length % 65536 = 1 := by
      simp only [List.length_replicate]
    rw [h1]
    simp only [be16]
    norm_num
    rfl
  exact ⟨hlen, hr,
    (C10_length_prefix_truncation (List.replicate 65537 97)).2.2 hlen 1 hr⟩

/-- C4 counterexample: with the device already in App mode (get_mode
response byte 0), calling set_mode App succeeds but does issue wire
traffic: the GET_MODE command frame is written and one byte is read, so
the claim that no bytes are written to and none read from the connection
is false. -/
theorem C4_counterexample :
    (set_mode (fun _ => none) .App ⟨⟨[0], []⟩, 0⟩).res = .ok () ∧
    (set_mode (fun _ => none) .App ⟨⟨[0], []⟩, 0⟩).serial.events ≠ [] ∧
    (set_mode (fun _ => none) .App ⟨⟨[0], []⟩, 0⟩).serial.input = [] := by
  refine ⟨rfl, ?_, rfl⟩
  decide

/-- C4 amended: when the device's current mode equals the target, set_mode
returns success immediately after the single get_mode exchange, issuing
exactly the 4-byte GET_MODE command frame and a flush and reading exactly
one byte, with no further wire traffic and no reconnect attempt. -/
theorem C4_set_mode_idempotent (provider : Nat → Option Conn) (target : Mode)
    (b : Nat) (rest : List Nat) (evs : List WireEvent) (a : Nat)
    (h : mode_of_byte b = target) :
    set_mode provider target ⟨⟨b :: rest, evs⟩, a⟩ =
      ⟨.ok (), ⟨rest, evs ++ [WireEvent.write 43, WireEvent.write 212,
        WireEvent.write 17, WireEvent.write 238, WireEvent.flush,
        WireEvent.read b]⟩, none, a⟩ := by
  simp [set_mode, get_mode, rx_u8, flush_cmd, tx_cmd, wr, not8, PACKET_CMD,
    CMD_GET_MODE, h]

/-- C4 witness: device byte 0 maps to App, and set_mode App then stops
after the get_mode exchange. -/
theorem C4_set_mode_idempotent_w :
    mode_of_byte 0 = .App ∧
    set_mode (fun _ => none) .App ⟨⟨[0], []⟩, 0⟩ =
      ⟨.ok (), ⟨[], [WireEvent.write 43, WireEvent.write 212,
        WireEvent.write 17, WireEvent.write 238, WireEvent.flush,
        WireEvent.read 0]⟩, none, 0⟩ := by
  refine ⟨by decide, ?_⟩
  have h := C4_set_mode_idempotent (fun _ => none) .App 0 [] [] 0 (by decide)
  simpa using h

/-- Closed form of rx_str on a stream exposing the two length-prefix bytes. -/
theorem rx_str_cons (b1 b2 : Nat) (rest : List Nat) (evs : List WireEvent) :
    rx_str ⟨b1 :: b2 :: rest, evs⟩ =
      if b1 * 256 + b2 ≤ rest.length then
        if validUtf8 (rest.take (b1 * 256 + b2)) then
          (.ok (rest.take (b1 * 256 + b2)),
            ⟨rest.drop (b1 * 256 + b2),
              evs ++ [WireEvent.read b1, WireEvent.read b2] ++
                (rest.take (b1 * 256 + b2)).map WireEvent.read⟩)
        else
          (.error .malformedString,
            ⟨rest.drop (b1 * 256 + b2),
              evs ++ [WireEvent.read b1, WireEvent.read b2] ++
                (rest.take (b1 * 256 + b2)).map WireEvent.read⟩)
      else (.error .ioFail, ⟨rest, evs ++ [WireEvent.read b1, WireEvent.read b2]⟩) := by
  by_cases hlen : b1 * 256 + b2 ≤ rest.length
  · by_cases hv : validUtf8 (rest.take (b1 * 256 + b2)) = true
    · simp [rx_str, rx_u16, rdN, hlen, hv]
    · simp [rx_str, rx_u16, rdN, hlen, hv]
  · simp [rx_str, rx_u16, rdN, hlen]

/-- C7 counterexample: the roundtrip is not the identity for every string.
For the 65536-byte string of letter a, the 16-bit length prefix wraps to
zero, so rx_str on the loopback of the tx_str output decodes the empty
string, not the original. -/
theorem C7_counterexample :
    (rx_str ⟨writtenBytes (tx_str ⟨[], []⟩ (List.replicate 65536 97)).events,
      []⟩).1 = .ok [] ∧
    (List.replicate 65536 97 : List Nat) ≠ [] := by
  constructor
  · have he : writtenBytes (tx_str ⟨[], []⟩ (List.replicate 65536 97)).events =
        0 :: 0 :: List.replicate 65536 97 := by
      have h2 : (tx_str ⟨[], []⟩ (List.replicate 65536 97)).events =
          (be16 ((List.replicate 65536 97).length % 65536) ++
            List.replicate 65536 97).map WireEvent.write := by
        simp only [tx_str, tx_u16, wr, List.map_append, List.nil_append]
      rw [h2, writtenBytes_map_write]
      have h1 : (List.replicate 65536 (97 : Nat)).length % 65536 = 0 := by
        simp only [List.length_replicate]
      rw [h1]
      rfl
    rw [he, rx_str_cons]
    rw [if_pos (by simp only [Nat.zero_mul, Nat.zero_add]; exact Nat.zero_le _)]
    simp only [Nat.zero_mul, Nat.zero_add, List.take_zero]
    rw [show validUtf8 [] = true from rfl, if_pos rfl]
  · intro hc
    have h : (List.replicate 65536 (97 : Nat)).length = 65536 := by
      simp only [List.length_replicate]
    rw [hc] at h
    simp at h

/-- C7 amended: for every string whose UTF-8 byte length is at most 65535
(any content, multi-byte sequences and the empty string included),
sending with tx_str and then decoding the written bytes with rx_str on a
loopback stream yields exactly the original string content, consuming the
whole stream. -/
theorem C7_str_roundtrip (s : List Nat) (hv : validUtf8 s = true)
    (hlen : s.length ≤ 65535) :
    rx_str ⟨writtenBytes (tx_str ⟨[], []⟩ s).events, []⟩ =
      (.ok s, ⟨[], (be16 s.length ++ s).map WireEvent.read⟩) := by
  have he : writtenBytes (tx_str ⟨[], []⟩ s).events = be16 s.length ++ s := by
    have h2 : (tx_str ⟨[], []⟩ s).events =
        (be16 (s.length % 65536) ++ s).map WireEvent.write := by
      simp only [tx_str, tx_u16, wr, List.map_append, List.nil_append]
    rw [h2, writtenBytes_map_write, Nat.mod_eq_of_lt (by omega)]
  rw [he]
  have hd : s.length / 256 % 256 = s.length / 256 := Nat.mod_eq_of_lt (by omega)
  have hval : s.length / 256 % 256 * 256 + s.length % 256 = s.length := by
    rw [hd]; omega
  have hbe : be16 s.length ++ s = s.length / 256 % 256 :: s.length % 256 :: s := rfl
  rw [hbe, rx_str_cons, hval]
  rw [if_pos (le_refl _), List.take_length, if_pos hv, List.drop_length]
  simp [be16]

/-- C7 witness on the two-byte UTF-8 encoding of letter e with acute
accent: the roundtrip reproduces it exactly. -/
theorem C7_str_roundtrip_w :
    validUtf8 [195, 169] = true ∧ ([195, 169] : List Nat).length ≤ 65535 ∧
    rx_str ⟨writtenBytes (tx_str ⟨[], []⟩ [195, 169]).events, []⟩ =
      (.ok [195, 169], ⟨[], (be16 ([195, 169] : List Nat).length ++
        [195, 169]).map WireEvent.read⟩) :=
  ⟨by decide, by decide, C7_str_roundtrip [195, 169] (by decide) (by decide)⟩

theorem setModeLoop_all_fail (provider : Nat → Option Conn)
    (hp : ∀ i, provider i = none) :
    ∀ (fuel : Nat) (st : DriverState),
      setModeLoop provider fuel st =
        ⟨.error .reconnectTimeout, st.serial, none, st.acq + fuel⟩ := by
  intro fuel
  induction fuel with
  | zero => intro st; simp [setModeLoop]
  | succ n ih =>
    intro st
    simp only [setModeLoop, hp st.acq]
    rw [ih ⟨st.serial, st.acq + 1⟩]
    have hacq : st.acq + 1 + n = st.acq + (n + 1) := by omega
    dsimp only
    rw [hacq]

theorem setModeLoop_succeeds (provider : Nat → Option Conn) :
    ∀ (k fuel : Nat) (st : DriverState) (fresh : Conn) (v : Nat) (c1 : Conn),
      (∀ i, i < k → provider (st.acq + i) = none) →
      provider (st.acq + k) = some fresh →
      k < fuel →
      get_status st.serial = (.ok v, c1) →
      setModeLoop provider fuel st = ⟨.ok (), fresh, some c1, st.acq + k + 1⟩ := by
  intro k
  induction k with
  | zero =>
    intro fuel st fresh v c1 _ hk hf hs
    cases fuel with
    | zero => omega
    | succ n =>
      rw [Nat.add_zero] at hk
      simp only [setModeLoop, hk, hs]
  | succ k ih =>
    intro fuel st fresh v c1 h0 hk hf hs
    cases fuel with
    | zero => omega
    | succ n =>
      have hnone : provider st.acq = none := by
        have h := h0 0 (Nat.succ_pos k)
        simpa using h
      simp only [setModeLoop, hnone]
      have h0' : ∀ i, i < k → provider ((st.acq + 1) + i) = none := by
        intro i hi
        have he : st.acq + 1 + i = st.acq + (i + 1) := by omega
        rw [he]
        exact h0 (i + 1) (by omega)
      have hk' : provider ((st.acq + 1) + k) = some fresh := by
        have he : st.acq + 1 + k = st.acq + (k + 1) := by omega
        rw [he]
        exact hk
      have hrec := ih n ⟨st.serial, st.acq + 1⟩ fresh v c1 h0' hk' (by omega) hs
      rw [hrec]
      have hacq : st.acq + 1 + k + 1 = st.acq + (k + 1) + 1 := by omega
      dsimp only
      rw [hacq]

/-- C8: the reconnect loop of set_mode makes at most 100 connection
acquisition attempts.  After a mode-transition command (device reports a
non-Service byte, target Service, healthy 0xA5 status stream on the held
connection): with a provider whose acquisitions all fail, set_mode fails
with the reconnect timeout after exactly 100 absorbed attempts; with a
provider failing the first 5 acquisition attempts and succeeding on the
6th, set_mode succeeds having made exactly 6 acquisition attempts, the
first 5 failures being absorbed rather than propagated. -/
theorem C8_reconnect_bound (b lo : Nat) (rest : List Nat) (evs : List WireEvent)
    (hb : mode_of_byte b ≠ .Service) (hlo : lo < 256) :
    (∀ provider : Nat → Option Conn, (∀ i, provider i = none) →
      (set_mode provider .Service ⟨⟨b :: 165 :: lo :: rest, evs⟩, 0⟩).res =
        .error .reconnectTimeout ∧
      (set_mode provider .Service ⟨⟨b :: 165 :: lo :: rest, evs⟩, 0⟩).acq = 100) ∧
    (∀ (provider : Nat → Option Conn) (fresh : Conn),
      (∀ i, i < 5 → provider i = none) → provider 5 = some fresh →
      (set_mode provider .Service ⟨⟨b :: 165 :: lo :: rest, evs⟩, 0⟩).res =
        .ok () ∧
      (set_mode provider .Service ⟨⟨b :: 165 :: lo :: rest, evs⟩, 0⟩).acq = 6 ∧
      (set_mode provider .Service ⟨⟨b :: 165 :: lo :: rest, evs⟩, 0⟩).serial =
        fresh) := by
  have hset : ∀ provider : Nat → Option Conn,
      set_mode provider .Service ⟨⟨b :: 165 :: lo :: rest, evs⟩, 0⟩ =
        setModeLoop provider 100 ⟨⟨165 :: lo :: rest,
          evs ++ [WireEvent.write 43, WireEvent.write 212, WireEvent.write 17,
            WireEvent.write 238, WireEvent.flush, WireEvent.read b,
            WireEvent.write 43, WireEvent.write 212, WireEvent.write 18,
            WireEvent.write 237, WireEvent.write 0]⟩, 0⟩ := by
    intro provider
    simp [set_mode, get_mode, rx_u8, flush_cmd, tx_cmd, tx_u8, wr, not8,
      PACKET_CMD, CMD_GET_MODE, CMD_IO_RST, hb]
  have hstat : get_status ⟨165 :: lo :: rest,
      evs ++ [WireEvent.write 43, WireEvent.write 212, WireEvent.write 17,
        WireEvent.write 238, WireEvent.flush, WireEvent.read b,
        WireEvent.write 43, WireEvent.write 212, WireEvent.write 18,
        WireEvent.write 237, WireEvent.write 0]⟩ =
      (.ok lo, ⟨rest,
        (evs ++ [WireEvent.write 43, WireEvent.write 212, WireEvent.write 17,
          WireEvent.write 238, WireEvent.flush, WireEvent.read b,
          WireEvent.write 43, WireEvent.write 212, WireEvent.write 18,
          WireEvent.write 237, WireEvent.write 0]) ++
        [WireEvent.write 43, WireEvent.write 212, WireEvent.write 16,
          WireEvent.write 239, WireEvent.flush,
          WireEvent.read 165, WireEvent.read lo]⟩) := by
    have hm : (165 * 256 + lo) &&& 65280 = 165 * 256 :=
      mask16 165 lo (by norm_num) hlo
    have hmod : (165 * 256 + lo) % 256 = lo := by omega
    simp [get_status, rx_u16, flush_cmd, tx_cmd, wr, not8, PACKET_CMD,
      CMD_STATUS, hm, hmod]
  constructor
  · intro provider hp
    rw [hset provider, setModeLoop_all_fail provider hp 100]
    exact ⟨rfl, rfl⟩
  · intro provider fresh h5 h6
    rw [hset provider]
    have h5' : ∀ i, i < 5 → provider ((0 : Nat) + i) = none := by
      intro i hi
      rw [Nat.zero_add]
      exact h5 i hi
    have h6' : provider ((0 : Nat) + 5) = some fresh := by
      rw [Nat.zero_add]; exact h6
    rw [setModeLoop_succeeds provider 5 100 _ fresh lo _ h5' h6'
      (by norm_num) hstat]
    exact ⟨rfl, rfl, rfl⟩

/-- C8 witness: the device reports App (byte 0), the status stream is
healthy; an always-failing provider yields the reconnect timeout after 100
attempts, and a provider failing the first 5 attempts then succeeding
yields success after exactly 6 attempts. -/
theorem C8_reconnect_bound_w :
    mode_of_byte 0 ≠ Mode.Service ∧
    (set_mode (fun _ => none) .Service ⟨⟨[0, 165, 0], []⟩, 0⟩).res =
      .error .reconnectTimeout ∧
    (set_mode (fun _ => none) .Service ⟨⟨[0, 165, 0], []⟩, 0⟩).acq = 100 ∧
    (set_mode (fun i => if i < 5 then none else some ⟨[], []⟩) .Service
      ⟨⟨[0, 165, 0], []⟩, 0⟩).res = .ok () ∧
    (set_mode (fun i => if i < 5 then none else some ⟨[], []⟩) .Service
      ⟨⟨[0, 165, 0], []⟩, 0⟩).acq = 6 := by
  have h := C8_reconnect_bound 0 0 [] [] (by decide) (by decide)
  have h2 := h.2 (fun i => if i < 5 then none else some ⟨[], []⟩) ⟨[], []⟩
    (by decide) (by norm_num)
  exact ⟨by decide, (h.1 (fun _ => none) (fun i => rfl)).1,
    (h.1 (fun _ => none) (fun i => rfl)).2, h2.1, h2.2.1⟩

/-- C3: evaluation of set_mode at the failing scenario: device reports App
(byte 0), target Service, the first acquisition attempt succeeds with a
fresh drained connection, and the held connection answers the status
exchange with 0xA5 0x00.  The call succeeds, but the freshly acquired
connection is installed with an empty wire trace: the get_status exchange
(STATUS frame write and the two response reads) was performed on the old,
replaced connection, not on the newly acquired one as the specification
requires. -/
theorem C3_status_check_on_old_connection :
    (set_mode (fun _ => some ⟨[], []⟩) .Service
      ⟨⟨[0, 165, 0], []⟩, 0⟩).res = .ok () ∧
    (set_mode (fun _ => some ⟨[], []⟩) .Service
      ⟨⟨[0, 165, 0], []⟩, 0⟩).serial = ⟨[], []⟩ ∧
    (set_mode (fun _ => some ⟨[], []⟩) .Service
      ⟨⟨[0, 165, 0], []⟩, 0⟩).replaced = some ⟨[],
        [WireEvent.write 43, WireEvent.write 212, WireEvent.write 17,
          WireEvent.write 238, WireEvent.flush, WireEvent.read 0,
          WireEvent.write 43, WireEvent.write 212, WireEvent.write 18,
          WireEvent.write 237, WireEvent.write 0,
          WireEvent.write 43, WireEvent.write 212, WireEvent.write 16,
          WireEvent.write 239, WireEvent.flush,
          WireEvent.read 165, WireEvent.read 0]⟩ := by
  refine ⟨rfl, rfl, ?_⟩
  decide

/-- C6: in load_game, after the ROM write and the reset release, exactly
one byte is read; for every response byte other than 114 (ASCII r) the
call fails with the unexpected-response error carrying that byte, and the
wire trace ends at that read: no FIFO traffic (no star-t, star-u or
star-g sequence) is ever written.  The scenario: the device already
reports App mode (byte 0) and then answers the post-reset read with
resp. -/
theorem C6_load_game_ready_check (provider : Nat → Option Conn)
    (name game : List Nat) (skipFpga : Bool) (resp : Nat) (rest : List Nat)
    (evs : List WireEvent) (a : Nat) (hr : resp ≠ 114) :
    load_game provider name game skipFpga ⟨⟨0 :: resp :: rest, evs⟩, a⟩ =
      (.error (.unexpectedResponse resp),
        ⟨⟨rest, evs ++
          [WireEvent.write 43, WireEvent.write 212, WireEvent.write 17,
            WireEvent.write 238, WireEvent.flush, WireEvent.read 0] ++
          [WireEvent.write 43, WireEvent.write 212, WireEvent.write 41,
            WireEvent.write 214, WireEvent.write 1, WireEvent.flush] ++
          (if game.length = 0 then [] else
            [WireEvent.write 43, WireEvent.write 212, WireEvent.write 26,
              WireEvent.write 229, WireEvent.write 0, WireEvent.write 0,
              WireEvent.write 0, WireEvent.write 0] ++
            (be32 (game.length % 2 ^ 32)).map WireEvent.write ++
            [WireEvent.write 0, WireEvent.flush] ++
            game.map WireEvent.write ++ [WireEvent.flush]) ++
          [WireEvent.write 43, WireEvent.write 212, WireEvent.write 41,
            WireEvent.write 214, WireEvent.write 0, WireEvent.flush] ++
          [WireEvent.read resp]⟩, a⟩) := by
  by_cases hg : game.length = 0
  · simp [load_game, set_mode, get_mode, mode_of_byte, rx_u8, reset_host,
      write_memory, tx_cmd, tx_u8, tx_u32, flush_cmd, wr, not8, be32,
      PACKET_CMD, CMD_GET_MODE, CMD_HOST_RST, CMD_MEM_WR, ADDR_ROM,
      ResetMode.command, hr, hg]
  · simp [load_game, set_mode, get_mode, mode_of_byte, rx_u8, reset_host,
      write_memory, tx_cmd, tx_u8, tx_u32, flush_cmd, wr, not8, be32,
      PACKET_CMD, CMD_GET_MODE, CMD_HOST_RST, CMD_MEM_WR, ADDR_ROM,
      ResetMode.command, hr, hg]

/-- C6 witness: response byte 120 (ASCII x) after a 2-byte ROM write makes
load_game fail with the unexpected-response error. -/
theorem C6_load_game_ready_check_w :
    (120 : Nat) ≠ 114 ∧
    (load_game (fun _ => none) [] [1, 2] false ⟨⟨[0, 120], []⟩, 0⟩).1 =
      .error (.unexpectedResponse 120) := by
  refine ⟨by decide, ?_⟩
  rw [C6_load_game_ready_check (fun _ => none) [] [1, 2] false 120 [] [] 0
    (by decide)]

theorem chunkList_nil : chunkList [] = [] := by
  rw [chunkList]
  simp

theorem chunkList_ne (data : List Nat) (hd : data ≠ []) :
    chunkList data =
      data.take ACK_BLOCK_SIZE :: chunkList (data.drop ACK_BLOCK_SIZE) := by
  rw [chunkList]
  simp [hd]

theorem tx_ack_nil (c : Conn) : tx_ack c [] = (.ok (), c) := by
  rw [tx_ack]
  simp

theorem tx_ack_cons (c : Conn) (data : List Nat) (hd : data ≠ [])
    (b : Nat) (tl : List Nat) (hin : c.input = b :: tl) :
    tx_ack c data =
      if b ≠ 0 then
        (.error (.transferError b), ⟨tl, c.events ++ [WireEvent.read b]⟩)
      else
        tx_ack (flush_cmd (wr ⟨tl, c.events ++ [WireEvent.read b]⟩
          (data.take ACK_BLOCK_SIZE))) (data.drop ACK_BLOCK_SIZE) := by
  rw [tx_ack]
  simp [hd, rx_u8, hin]

theorem chunkList_join_aux : ∀ (n : Nat) (data : List Nat), data.length ≤ n →
    (chunkList data).flatten = data := by
  intro n
  induction n with
  | zero =>
    intro data hle
    have hd : data = [] := by
      cases data with
      | nil => rfl
      | cons a l => simp at hle
    subst hd
    rw [chunkList_nil]
    rfl
  | succ n ih =>
    intro data hle
    by_cases hd : data = []
    · subst hd
      rw [chunkList_nil]
      rfl
    · rw [chunkList_ne data hd]
      have hp : 0 < data.length := List.length_pos.mpr hd
      have hlen2 : (data.drop ACK_BLOCK_SIZE).length ≤ n := by
        simp only [List.length_drop, ACK_BLOCK_SIZE]
        omega
      simp only [List.flatten_cons]
      rw [ih (data.drop ACK_BLOCK_SIZE) hlen2]
      exact List.take_append_drop _ _

theorem chunkList_sizes_aux : ∀ (n : Nat) (data : List Nat), data.length ≤ n →
    ∀ ch ∈ chunkList data, ch ≠ [] ∧ ch.length ≤ ACK_BLOCK_SIZE := by
  intro n
  induction n with
  | zero =>
    intro data hle ch hch
    have hd : data = [] := by
      cases data with
      | nil => rfl
      | cons a l => simp at hle
    subst hd
    rw [chunkList_nil] at hch
    simp at hch
  | succ n ih =>
    intro data hle ch hch
    by_cases hd : data = []
    · subst hd
      rw [chunkList_nil] at hch
      simp at hch
    · rw [chunkList_ne data hd] at hch
      have hp : 0 < data.length := List.length_pos.mpr hd
      rcases List.mem_cons.mp hch with he | hm
      · subst he
        constructor
        · rw [Ne, List.take_eq_nil_iff]
          simp [hd, ACK_BLOCK_SIZE]
        · simp only [List.length_take, ACK_BLOCK_SIZE]
          omega
      · have hlen2 : (data.drop ACK_BLOCK_SIZE).length ≤ n := by
          simp only [List.length_drop, ACK_BLOCK_SIZE]
          omega
        exact ih (data.drop ACK_BLOCK_SIZE) hlen2 ch hm

theorem tx_ack_ok_aux : ∀ (n : Nat) (data : List Nat), data.length ≤ n →
    ∀ (c : Conn) (rest : List Nat),
      c.input = List.replicate (chunkList data).length 0 ++ rest →
      tx_ack c data =
        (.ok (), ⟨rest, c.events ++ ((chunkList data).map chunkTrace).flatten⟩) := by
  intro n
  induction n with
  | zero =>
    intro data hle c rest hin
    have hd : data = [] := by
      cases data with
      | nil => rfl
      | cons a l => simp at hle
    subst hd
    rw [tx_ack_nil]
    rw [chunkList_nil] at hin ⊢
    obtain ⟨ci, ce⟩ := c
    simp at hin
    simp [hin]
  | succ n ih =>
    intro data hle c rest hin
    by_cases hd : data = []
    · subst hd
      rw [tx_ack_nil]
      rw [chunkList_nil] at hin ⊢
      obtain ⟨ci, ce⟩ := c
      simp at hin
      simp [hin]
    · rw [chunkList_ne data hd] at hin ⊢
      rw [List.length_cons, List.replicate_succ, List.cons_append] at hin
      rw [tx_ack_cons c data hd 0 _ hin]
      rw [if_neg (by simp)]
      have hp : 0 < data.length := List.length_pos.mpr hd
      have hlen2 : (data.drop ACK_BLOCK_SIZE).length ≤ n := by
        simp only [List.length_drop, ACK_BLOCK_SIZE]
        omega
      have hin2 : (flush_cmd (wr ⟨List.replicate (chunkList
          (data.drop ACK_BLOCK_SIZE)).length 0 ++ rest,
          c.events ++ [WireEvent.read 0]⟩ (data.take ACK_BLOCK_SIZE))).input =
          List.replicate (chunkList (data.drop ACK_BLOCK_SIZE)).length 0 ++
            rest := rfl
      rw [ih (data.drop ACK_BLOCK_SIZE) hlen2 _ rest hin2]
      simp [flush_cmd, wr, chunkTrace]

theorem tx_ack_abort_aux : ∀ (k : Nat) (data : List Nat) (c : Conn)
    (code : Nat) (rest : List Nat), code ≠ 0 →
    k < (chunkList data).length →
    c.input = List.replicate k 0 ++ code :: rest →
    tx_ack c data = (.error (.transferError code),
      ⟨rest, c.events ++ (((chunkList data).take k).map chunkTrace).flatten ++
        [WireEvent.read code]⟩) := by
  intro k
  induction k with
  | zero =>
    intro data c code rest hc hk hin
    have hd : data ≠ [] := by
      intro he
      subst he
      rw [chunkList_nil] at hk
      simp at hk
    rw [List.replicate_zero, List.nil_append] at hin
    rw [tx_ack_cons c data hd code _ hin]
    rw [if_pos hc]
    simp
  | succ k ih =>
    intro data c code rest hc hk hin
    have hd : data ≠ [] := by
      intro he
      subst he
      rw [chunkList_nil] at hk
      simp at hk
    rw [List.replicate_succ, List.cons_append] at hin
    rw [tx_ack_cons c data hd 0 _ hin]
    rw [if_neg (by simp)]
    rw [chunkList_ne data hd] at hk ⊢
    rw [List.length_cons] at hk
    have hk2 : k < (chunkList (data.drop ACK_BLOCK_SIZE)).length := by omega
    have hin2 : (flush_cmd (wr ⟨List.replicate k 0 ++ code :: rest,
        c.events ++ [WireEvent.read 0]⟩ (data.take ACK_BLOCK_SIZE))).input =
        List.replicate k 0 ++ code :: rest := rfl
    rw [ih (data.drop ACK_BLOCK_SIZE) _ code rest hc hk2 hin2]
    simp [flush_cmd, wr, chunkTrace, List.take_succ_cons]

/-- C5: tx_ack splits the payload into the consecutive chunks of chunkList
(each non-empty, at most 1024 bytes, concatenating back to the payload);
with an all-zero status stream it reads exactly one status byte before
writing each chunk followed by a flush; and when the status byte read
before chunk k (zero-based) is non-zero, it aborts with the transfer error
carrying that code, the trace ending at that read with chunk k and all
later chunks never written. -/
theorem C5_tx_ack_gated_transfer (data : List Nat) :
    ((chunkList data).flatten = data) ∧
    (∀ ch ∈ chunkList data, ch ≠ [] ∧ ch.length ≤ ACK_BLOCK_SIZE) ∧
    (∀ (c : Conn) (rest : List Nat),
      c.input = List.replicate (chunkList data).length 0 ++ rest →
      tx_ack c data =
        (.ok (), ⟨rest, c.events ++
          ((chunkList data).map chunkTrace).flatten⟩)) ∧
    (∀ (k code : Nat) (c : Conn) (rest : List Nat), code ≠ 0 →
      k < (chunkList data).length →
      c.input = List.replicate k 0 ++ code :: rest →
      tx_ack c data = (.error (.transferError code),
        ⟨rest, c.events ++
          (((chunkList data).take k).map chunkTrace).flatten ++
          [WireEvent.read code]⟩)) := by
  refine ⟨chunkList_join_aux data.length data (le_refl _),
    chunkList_sizes_aux data.length data (le_refl _),
    fun c rest hin => tx_ack_ok_aux data.length data (le_refl _) c rest hin,
    fun k code c rest hc hk hin => tx_ack_abort_aux k data c code rest hc hk hin⟩

theorem chunkList_2500 : chunkList (List.replicate 2500 1) =
    [List.replicate 1024 1, List.replicate 1024 1, List.replicate 452 1] := by
  rw [chunkList_ne _ (by rw [Ne, List.replicate_eq_nil_iff]; norm_num), ACK_BLOCK_SIZE]
  rw [List.take_replicate, List.drop_replicate]
  norm_num
  rw [chunkList_ne _ (by rw [Ne, List.replicate_eq_nil_iff]; norm_num), ACK_BLOCK_SIZE]
  rw [List.take_replicate, List.drop_replicate]
  norm_num
  rw [chunkList_ne _ (by rw [Ne, List.replicate_eq_nil_iff]; norm_num), ACK_BLOCK_SIZE]
  rw [List.take_replicate, List.drop_replicate]
  norm_num
  rw [chunkList_nil]

/-- C5 witness: the 2500-byte payload yields exactly the chunks of sizes
1024, 1024 and 452; with status stream 0 0 0 the transfer succeeds with
one status read before each chunk; with status stream 0 7 (a non-zero
status before chunk 2) it aborts with the transfer error code 7, the
trace containing only chunk 1 and ending at the read of 7, so no chunk-2
or chunk-3 byte is ever written. -/
theorem C5_tx_ack_gated_transfer_w :
    ((chunkList (List.replicate 2500 1)).map List.length =
      [1024, 1024, 452]) ∧
    (tx_ack ⟨[0, 0, 0], []⟩ (List.replicate 2500 1) =
      (.ok (), ⟨[], [] ++
        ((chunkList (List.replicate 2500 1)).map chunkTrace).flatten⟩)) ∧
    (tx_ack ⟨[0, 7], []⟩ (List.replicate 2500 1) =
      (.error (.transferError 7),
        ⟨[], [] ++
          (((chunkList (List.replicate 2500 1)).take 1).map
            chunkTrace).flatten ++ [WireEvent.read 7]⟩)) := by
  have h := C5_tx_ack_gated_transfer (List.replicate 2500 1)
  refine ⟨?_, ?_, ?_⟩
  · rw [chunkList_2500]
    simp only [List.map_cons, List.map_nil, List.length_replicate]
  · exact h.2.2.1 ⟨[0, 0, 0], []⟩ []
      (by rw [chunkList_2500]; rfl)
  · exact h.2.2.2 1 7 ⟨[0, 7], []⟩ [] (by decide)
      (by rw [chunkList_2500]; simp only [List.length_cons, List.length_nil]; omega)
      (by rfl)
